import Mathlib

/-!
# Verification of the NOC record-lookup application core

Shallow embedding of the dataset loader and query engine of `app.py`
(records search web application).  Python strings are modelled as Lean
`String` (a wrapper around `List Char`); Python's ASCII-relevant string
operations (`lower`, `upper`, `strip`, `split`, `in`, `startswith`,
`isdigit`) are modelled character-wise below.  The data of the
application (names, identifiers, `SNF/<digits>` set numbers, line
numbers) is ASCII, for which these models agree with Python semantics.
-/

namespace Noc

/-! ## Python string-operation models -/

/-- Python `str.lower()` (ASCII model): lowercase every character. -/
def pyLower (s : String) : String := ⟨s.data.map Char.toLower⟩

/-- Python `str.upper()` (ASCII model): uppercase every character. -/
def pyUpper (s : String) : String := ⟨s.data.map Char.toUpper⟩

/-- Python `str.strip()` (ASCII model): drop leading and trailing whitespace. -/
def pyStrip (s : String) : String :=
  ⟨(((s.data.dropWhile Char.isWhitespace).reverse).dropWhile Char.isWhitespace).reverse⟩

/-- Python `needle in hay` substring containment test. -/
def listContains (hay needle : List Char) : Bool :=
  match hay with
  | [] => needle.isEmpty
  | _ :: t => needle.isPrefixOf hay || listContains t needle

/-- Python `needle in hay` on strings. -/
def pyContains (hay needle : String) : Bool := listContains hay.data needle.data

/-- Python `s.startswith(pre)`. -/
def pyStartsWith (s pre : String) : Bool := pre.data.isPrefixOf s.data

/-- Python `s.split()`: split on whitespace runs, discarding empty pieces. -/
def pySplitWs (s : String) : List String :=
  ((s.data.splitOnP Char.isWhitespace).filter (fun w => !w.isEmpty)).map
    (fun w => (⟨w⟩ : String))

/-- Python `s.split('/')`: split on every slash, keeping empty pieces. -/
def pySplitSlash (s : String) : List String :=
  (s.data.splitOnP (fun c => c == '/')).map (fun w => (⟨w⟩ : String))

/-- Python `s.isdigit()` (ASCII model): nonempty and all characters are digits. -/
def pyIsDigitStr (s : String) : Bool := !s.data.isEmpty && s.data.all Char.isDigit

/-! ## Character-level facts about the ASCII case maps -/

theorem toNat_ofNat_valid {n : Nat} (h : n.isValidChar) : (Char.ofNat n).toNat = n := by
  rw [Char.ofNat, dif_pos h]
  rfl

theorem char_eq_iff_toNat {a b : Char} : a = b ↔ a.toNat = b.toNat := by
  constructor
  · intro h; rw [h]
  · intro h; exact Char.eq_of_val_eq (UInt32.toNat.inj h)

theorem isWhitespace_eq_toNat (c : Char) :
    c.isWhitespace =
      (decide (c.toNat = 32) || decide (c.toNat = 9) ||
       decide (c.toNat = 13) || decide (c.toNat = 10)) := by
  have h1 : decide (c = ' ') = decide (c.toNat = 32) :=
    decide_eq_decide.mpr char_eq_iff_toNat
  have h2 : decide (c = '\t') = decide (c.toNat = 9) :=
    decide_eq_decide.mpr char_eq_iff_toNat
  have h3 : decide (c = '\r') = decide (c.toNat = 13) :=
    decide_eq_decide.mpr char_eq_iff_toNat
  have h4 : decide (c = '\n') = decide (c.toNat = 10) :=
    decide_eq_decide.mpr char_eq_iff_toNat
  simp only [Char.isWhitespace, h1, h2, h3, h4]

theorem toLower_eq (c : Char) :
    Char.toLower c =
      if c.toNat ≥ 65 ∧ c.toNat ≤ 90 then Char.ofNat (c.toNat + 32) else c := rfl

theorem toUpper_eq (c : Char) :
    Char.toUpper c =
      if c.toNat ≥ 97 ∧ c.toNat ≤ 122 then Char.ofNat (c.toNat - 32) else c := rfl

theorem isWhitespace_toLower (c : Char) :
    (Char.toLower c).isWhitespace = c.isWhitespace := by
  rw [toLower_eq]
  by_cases h : c.toNat ≥ 65 ∧ c.toNat ≤ 90
  · rw [if_pos h]
    have hv : (c.toNat + 32).isValidChar := Or.inl (by omega)
    rw [isWhitespace_eq_toNat, isWhitespace_eq_toNat, toNat_ofNat_valid hv]
    rw [decide_eq_false (by omega), decide_eq_false (by omega),
        decide_eq_false (by omega), decide_eq_false (by omega),
        decide_eq_false (by omega), decide_eq_false (by omega),
        decide_eq_false (by omega), decide_eq_false (by omega)]
  · rw [if_neg h]

theorem isWhitespace_toUpper (c : Char) :
    (Char.toUpper c).isWhitespace = c.isWhitespace := by
  rw [toUpper_eq]
  by_cases h : c.toNat ≥ 97 ∧ c.toNat ≤ 122
  · rw [if_pos h]
    have hv : (c.toNat - 32).isValidChar := Or.inl (by omega)
    rw [isWhitespace_eq_toNat, isWhitespace_eq_toNat, toNat_ofNat_valid hv]
    rw [decide_eq_false (by omega), decide_eq_false (by omega),
        decide_eq_false (by omega), decide_eq_false (by omega),
        decide_eq_false (by omega), decide_eq_false (by omega),
        decide_eq_false (by omega), decide_eq_false (by omega)]
  · rw [if_neg h]

theorem toLower_toUpper (c : Char) :
    Char.toLower (Char.toUpper c) = Char.toLower c := by
  rw [toUpper_eq]
  by_cases h : c.toNat ≥ 97 ∧ c.toNat ≤ 122
  · rw [if_pos h]
    have hv : (c.toNat - 32).isValidChar := Or.inl (by omega)
    have h1 : (Char.ofNat (c.toNat - 32)).toNat ≥ 65 ∧ (Char.ofNat (c.toNat - 32)).toNat ≤ 90 := by
      rw [toNat_ofNat_valid hv]
      omega
    have h2 : ¬(c.toNat ≥ 65 ∧ c.toNat ≤ 90) := by omega
    rw [toLower_eq, toLower_eq, if_pos h1, if_neg h2, toNat_ofNat_valid hv]
    rw [show c.toNat - 32 + 32 = c.toNat by omega, Char.ofNat_toNat]
  · rw [if_neg h]

/-! ## String-level normalization lemmas -/

theorem dropWhile_ws_map_toLower (l : List Char) :
    (l.map Char.toLower).dropWhile Char.isWhitespace
      = (l.dropWhile Char.isWhitespace).map Char.toLower := by
  induction l with
  | nil => rfl
  | cons c cs ih =>
    rw [List.map_cons, List.dropWhile_cons, List.dropWhile_cons, isWhitespace_toLower]
    by_cases h : c.isWhitespace = true
    · rw [if_pos h, if_pos h, ih]
    · rw [if_neg h, if_neg h, List.map_cons]

theorem dropWhile_ws_map_toUpper (l : List Char) :
    (l.map Char.toUpper).dropWhile Char.isWhitespace
      = (l.dropWhile Char.isWhitespace).map Char.toUpper := by
  induction l with
  | nil => rfl
  | cons c cs ih =>
    rw [List.map_cons, List.dropWhile_cons, List.dropWhile_cons, isWhitespace_toUpper]
    by_cases h : c.isWhitespace = true
    · rw [if_pos h, if_pos h, ih]
    · rw [if_neg h, if_neg h, List.map_cons]

theorem pyStrip_pyLower (s : String) : pyStrip (pyLower s) = pyLower (pyStrip s) := by
  simp only [pyStrip, pyLower, dropWhile_ws_map_toLower, ← List.map_reverse]

theorem pyStrip_pyUpper (s : String) : pyStrip (pyUpper s) = pyUpper (pyStrip s) := by
  simp only [pyStrip, pyUpper, dropWhile_ws_map_toUpper, ← List.map_reverse]

theorem pyLower_pyUpper (s : String) : pyLower (pyUpper s) = pyLower s := by
  simp only [pyLower, pyUpper, List.map_map]
  have h : Char.toLower ∘ Char.toUpper = Char.toLower := funext toLower_toUpper
  rw [h]

/-! ## Data model

`Record` is one row of the dataset after the loader normalization
(`load_data` in app.py, lines 96-103): six text fields. -/

structure Record where
  associate_name : String
  associate_id : String
  receiver_name : String
  form_status : String
  line_no : String
  set_no : String
deriving Repr, DecidableEq

/-- `load_data` lines 84-87: `fillna("")`, `astype(str)`, `.str.strip()`
applied to every column.  In the model all values are already strings, so
only the strip remains. -/
def normalizeRow (r : Record) : Record :=
  { associate_name := pyStrip r.associate_name
    associate_id := pyStrip r.associate_id
    receiver_name := pyStrip r.receiver_name
    form_status := pyStrip r.form_status
    line_no := pyStrip r.line_no
    set_no := pyStrip r.set_no }

/-! ## Dataset loader (app.py `load_data`, lines 48-119) -/

/-- The alias table of `load_data` (lines 60-67), in Python dict insertion
order. -/
def column_mapping : List (String × List String) :=
  [("associate_name", ["ASSOCIATE NAME", "associate_name", "Associate Name", "Name", "NAME"]),
   ("associate_id", ["ASSOCIATE ID", "associate_id", "Associate ID", "ID", "id"]),
   ("receiver_name", ["RECEIVER\x27S NAME", "receiver_name", "Receiver Name", "RECEIVER NAME", "Receiver", "RECEIVER"]),
   ("form_status", ["FORM STATUS", "form_status", "Form Status", "Status", "STATUS"]),
   ("line_no", ["LINE NO.", "line_no", "Line No", "LINE NO", "Line", "LINE"]),
   ("set_no", ["SET-NO.OF FORM", "set_no", "Set No", "SET NO", "Set", "SET"])]

/-- First alias of a canonical field present among the source columns
(lines 70-77). -/
def findAlias (cols : List String) (aliases : List String) : Option String :=
  aliases.find? (fun a => cols.contains a)

/-- Message of the `DataError` raised at line 79 (format simplified; it
names the missing canonical field and lists the columns present). -/
def missingColumnMsg (field : String) (cols : List String) : String :=
  "Could not find column for " ++ field ++ ". Available columns: " ++
    String.intercalate ", " cols

/-- Column resolution loop (lines 69-79): first missing canonical field
aborts the load. -/
def resolveColumns (cols : List String) :
    List (String × List String) → Except String (List (String × String))
  | [] => Except.ok []
  | (field, aliases) :: rest =>
    match findAlias cols aliases with
    | some a => (resolveColumns cols rest).map (fun m => (field, a) :: m)
    | none => Except.error (missingColumnMsg field cols)

/-- Row retention test (line 93): the normalized `set_no` must start with
`SNF/` case-insensitively. -/
def validSetNo (r : Record) : Bool := pyStartsWith (pyUpper r.set_no) "SNF/"

/-- Reject reason recorded at line 94. -/
def rejectMsg (r : Record) : String := "Invalid SET-NO format: " ++ r.set_no

/-- Row-processing loop (lines 90-108) over already-normalized rows,
carrying the 1-based spreadsheet row number `index + 2` (the header is
row 1). -/
def processRows : Nat → List Record → List Record × List (Nat × String)
  | _, [] => ([], [])
  | i, r :: rs =>
    let rest := processRows (i + 1) rs
    if validSetNo r then (r :: rest.fst, rest.snd)
    else (rest.fst, (i, rejectMsg r) :: rest.snd)

/-- `load_data` (lines 48-119).  The I/O boundary is modelled by an
`Option`: `none` stands for a missing or unreadable source file, `some
(cols, rows)` for a readable spreadsheet whose header is `cols` and whose
data rows, viewed under the canonical schema after the rename of line 81,
are `rows`.  Every failure is re-wrapped at lines 117-119. -/
def load_data (source : Option (List String × List Record)) :
    Except String (List Record × List (Nat × String)) :=
  match source with
  | none => Except.error "Failed to load data: Data file not found"
  | some (cols, rows) =>
    match resolveColumns cols column_mapping with
    | Except.error e => Except.error ("Failed to load data: " ++ e)
    | Except.ok _ => Except.ok (processRows 2 (rows.map normalizeRow))

/-! ## Startup and reload state transitions (lines 121-126, 1209-1260) -/

/-- Startup (lines 121-126): a failed initial load falls back to the
empty dataset. -/
def startupData (loadResult : Except String (List Record × List (Nat × String))) :
    List Record :=
  match loadResult with
  | Except.ok d => d.fst
  | Except.error _ => []

/-- Outcome of the `/update_data` route: the in-memory dataset afterwards
and the success flag of the JSON response. -/
structure UpdateOutcome where
  data : List Record
  success : Bool
deriving Repr, DecidableEq

/-- `/update_data` (lines 1209-1260): on a successful reload the global
dataset is replaced; if `load_data` raises, the `except` at line 1258
reports failure and the assignment at line 1231 never runs, so the old
dataset stays in memory. -/
def update_data (old : List Record)
    (loadResult : Except String (List Record × List (Nat × String))) :
    UpdateOutcome :=
  match loadResult with
  | Except.ok d => { data := d.fst, success := true }
  | Except.error _ => { data := old, success := false }

/-! ## Search-term validation (app.py `validate_search_term`, lines 952-980) -/

def fmtErr : String :=
  "Invalid SNF format. Please use format: SNF/number (e.g., SNF/251)"

def numErr : String :=
  "Invalid SNF format. Only numbers are allowed after SNF/ (e.g., SNF/251)"

/-- `validate_search_term` (lines 952-980): returns the validity flag and
the optional error message. -/
def validate_search_term (search_term : String) : Bool × Option String :=
  if search_term == "" then (true, none)
  else if pyStartsWith (pyUpper search_term) "SNF/" then
    match pySplitSlash search_term with
    | [p0, p1] =>
      if !(pyUpper p0 == "SNF") then (false, some fmtErr)
      else if !(pyIsDigitStr (pyStrip p1)) then (false, some numErr)
      else (true, none)
    | _ => (false, some fmtErr)
  else (true, none)

/-! ## Query engine (app.py `search`, lines 982-1097) -/

/-- Line 995-996: a term starting case-insensitively with `SNF/` forces
the selector to `set_no`. -/
def effectiveType (search_term searchTypeParam : String) : String :=
  if pyStartsWith (pyUpper search_term) "SNF/" then "set_no" else searchTypeParam

/-- The per-record match test of the scan loop (lines 1011-1056), after
the selector forcing.  Field values are re-normalized exactly as at lines
1015-1019. -/
def matchesRecord (search_type search_term : String) (rec : Record) : Bool :=
  let search_lower := pyLower search_term
  let associate_name := pyStrip (pyLower rec.associate_name)
  let associate_id := pyStrip (pyLower rec.associate_id)
  let receiver_name := pyStrip (pyLower rec.receiver_name)
  let set_no := pyStrip (pyUpper rec.set_no)
  let line_no := pyStrip rec.line_no
  if search_type == "all" then
    if pyStartsWith (pyUpper search_term) "SNF/" then
      pyUpper search_term == set_no
    else
      let search_parts := pySplitWs search_lower
      if search_parts.length > 1 then
        search_parts.all (fun part =>
          pyContains associate_name part || pyContains associate_id part ||
          pyContains receiver_name part || pyContains (pyLower set_no) part ||
          part == pyLower line_no)
      else
        (pyContains associate_name search_lower ||
         pyContains associate_id search_lower ||
         pyContains receiver_name search_lower ||
         pyContains (pyLower set_no) search_lower ||
         search_term == line_no)
  else if search_type == "associate_name" then pyContains associate_name search_lower
  else if search_type == "associate_id" then pyContains associate_id search_lower
  else if search_type == "receiver_name" then pyContains receiver_name search_lower
  else if search_type == "set_no" then pyUpper search_term == set_no
  else if search_type == "line_no" then search_term == line_no
  else false

/-- The records accumulated by the scan loop, in dataset order. -/
def matchedRecords (data : List Record) (search_term searchTypeParam : String) :
    List Record :=
  data.filter (matchesRecord (effectiveType search_term searchTypeParam) search_term)

/-- `search.get_line_number` (lines 1067-1074): digits of `line_no`
parsed as a decimal integer; `none` models `float(\x27inf\x27)` when no
digit occurs. -/
def get_line_number (rec : Record) : Option Nat :=
  let ds := rec.line_no.data.filter Char.isDigit
  if ds.isEmpty then none
  else some (ds.foldl (fun n c => 10 * n + (c.toNat - 48)) 0)

/-- The sort key comparison used at line 1077 (`none` is positive
infinity). -/
def lineKeyLE (a b : Record) : Bool :=
  match get_line_number a, get_line_number b with
  | some x, some y => decide (x ≤ y)
  | some _, none => true
  | none, some _ => false
  | none, none => true

/-- The sort relation of the result ordering, as a decidable relation. -/
def lineKeyRel (a b : Record) : Prop := lineKeyLE a b = true

instance : DecidableRel lineKeyRel := fun a b => instDecidableEqBool (lineKeyLE a b) true

instance : IsTotal Record lineKeyRel := by
  constructor
  intro a b
  rw [lineKeyRel, lineKeyRel, lineKeyLE, lineKeyLE]
  cases get_line_number a with
  | none =>
    cases get_line_number b with
    | none => exact Or.inl rfl
    | some y => exact Or.inr rfl
  | some x =>
    cases get_line_number b with
    | none => exact Or.inl rfl
    | some y =>
      cases Nat.le_total x y with
      | inl h => exact Or.inl (decide_eq_true h)
      | inr h => exact Or.inr (decide_eq_true h)

instance : IsTrans Record lineKeyRel := by
  constructor
  intro a b c
  rw [lineKeyRel, lineKeyRel, lineKeyRel, lineKeyLE, lineKeyLE, lineKeyLE]
  cases get_line_number a with
  | none =>
    cases get_line_number b with
    | none =>
      cases get_line_number c with
      | none => intro _ _; rfl
      | some z => intro _ h; exact h
    | some y =>
      cases get_line_number c with
      | none => intro _ _; rfl
      | some z => intro h _; exact absurd h Bool.false_ne_true
  | some x =>
    cases get_line_number b with
    | none =>
      cases get_line_number c with
      | none => intro _ _; rfl
      | some z => intro _ h; exact absurd h Bool.false_ne_true
    | some y =>
      cases get_line_number c with
      | none => intro _ _; rfl
      | some z =>
        intro h1 h2
        exact decide_eq_true (Nat.le_trans (of_decide_eq_true h1) (of_decide_eq_true h2))

/-- Outcome of a `/` search request: a validation-error page, a page with
no result table (empty term), or a result list. -/
inductive SearchOutcome where
  | validationError (msg : String)
  | noQuery
  | results (recs : List Record)
deriving Repr, DecidableEq

/-- The `/` route (lines 982-1097): strip the raw term, force the
selector for `SNF/` terms, validate, then scan and sort.  Python's
`list.sort` is stable, and a stable sort under a total transitive
comparison is unique, so it is modelled by the stable
`List.insertionSort`. -/
def search (data : List Record) (rawSearch searchTypeParam : String) :
    SearchOutcome :=
  let search_term := pyStrip rawSearch
  if pyStartsWith (pyUpper search_term) "SNF/" &&
      !(validate_search_term search_term).fst then
    SearchOutcome.validationError ((validate_search_term search_term).snd.getD "")
  else if search_term == "" then SearchOutcome.noQuery
  else
    SearchOutcome.results
      (List.insertionSort lineKeyRel (matchedRecords data search_term searchTypeParam))

/-! ## Excel export filter (app.py `export_excel`, lines 1106-1130) -/

/-- The record filter of the `/export` route (lines 1115-1130). -/
def exportFilter (data : List Record) (rawSearch : String) : List Record :=
  let search_term := pyStrip rawSearch
  let search_lower := pyLower search_term
  let is_set_no_search := pyStartsWith (pyUpper search_term) "SNF/"
  let is_line_no_search := pyIsDigitStr search_term
  data.filter (fun rec =>
    if is_set_no_search then pyUpper search_term == pyUpper rec.set_no
    else if is_line_no_search then search_term == rec.line_no
    else
      (pyContains (pyLower rec.associate_name) search_lower ||
       pyContains (pyLower rec.associate_id) search_lower ||
       pyContains (pyLower rec.receiver_name) search_lower ||
       pyContains (pyLower rec.set_no) search_lower))

/-! ## Loader lemmas -/

theorem processRows_spec (rows : List Record) (i : Nat) :
    processRows i rows =
      (rows.filter validSetNo,
       ((rows.enumFrom i).filter (fun p => !validSetNo p.snd)).map
         (fun p => (p.fst, rejectMsg p.snd))) := by
  induction rows generalizing i with
  | nil => rfl
  | cons r rs ih =>
    simp only [processRows, ih, List.filter_cons, List.enumFrom_cons]
    by_cases h : validSetNo r
    · simp [h]
    · simp [h]

theorem resolveColumns_error_iff (cols : List String)
    (mapping : List (String × List String)) :
    (∃ e, resolveColumns cols mapping = Except.error e) ↔
      (∃ p, p ∈ mapping ∧ ∀ a ∈ p.snd, cols.contains a = false) := by
  induction mapping with
  | nil =>
    constructor
    · rintro ⟨e, he⟩
      exact absurd he (by simp [resolveColumns])
    · rintro ⟨p, hp, _⟩
      exact absurd hp (List.not_mem_nil p)
  | cons q rest ih =>
    obtain ⟨f, aliases⟩ := q
    constructor
    · rintro ⟨e, he⟩
      rw [resolveColumns] at he
      cases hfa : findAlias cols aliases with
      | some a =>
        rw [hfa] at he
        cases hr : resolveColumns cols rest with
        | error e2 =>
          obtain ⟨p, hp, hall⟩ := ih.mp ⟨e2, hr⟩
          exact ⟨p, List.mem_cons_of_mem _ hp, hall⟩
        | ok m =>
          rw [hr] at he
          exact absurd he (by simp [Except.map])
      | none =>
        refine ⟨(f, aliases), List.mem_cons_self _ _, ?_⟩
        intro a ha
        have h1 := List.find?_eq_none.mp hfa a ha
        simpa using h1
    · rintro ⟨p, hp, hall⟩
      rw [resolveColumns]
      cases List.mem_cons.mp hp with
      | inl hpe =>
        have hfa : findAlias cols aliases = none := by
          apply List.find?_eq_none.mpr
          intro a ha
          intro hcon
          have ha2 : a ∈ p.snd := by rw [hpe]; exact ha
          rw [hall a ha2] at hcon
          exact Bool.false_ne_true hcon
        rw [hfa]
        exact ⟨missingColumnMsg f cols, rfl⟩
      | inr hmem =>
        obtain ⟨e, he⟩ := ih.mpr ⟨p, hmem, hall⟩
        cases hfa : findAlias cols aliases with
        | some a =>
          rw [he]
          exact ⟨e, rfl⟩
        | none =>
          exact ⟨missingColumnMsg f cols, rfl⟩

theorem resolveColumns_error_msg (cols : List String)
    (mapping : List (String × List String)) (e : String)
    (h : resolveColumns cols mapping = Except.error e) :
    ∃ p, p ∈ mapping ∧ findAlias cols p.snd = none ∧
      e = missingColumnMsg p.fst cols := by
  induction mapping with
  | nil => exact absurd h (by simp [resolveColumns])
  | cons q rest ih =>
    obtain ⟨f, aliases⟩ := q
    rw [resolveColumns] at h
    cases hfa : findAlias cols aliases with
    | some a =>
      rw [hfa] at h
      cases hr : resolveColumns cols rest with
      | error e2 =>
        rw [hr] at h
        have he2 : e2 = e := by
          simpa [Except.map] using h
        obtain ⟨p, hp, hn, hm⟩ := ih (he2 ▸ hr)
        exact ⟨p, List.mem_cons_of_mem _ hp, hn, hm⟩
      | ok m =>
        rw [hr] at h
        exact absurd h (by simp [Except.map])
    | none =>
      rw [hfa] at h
      refine ⟨(f, aliases), List.mem_cons_self _ _, hfa, ?_⟩
      have := Except.error.inj h
      exact this.symm

/-- **C1.**  For a readable dataset whose columns resolve, the loaded
record sequence is exactly the normalized source rows whose trimmed
`set_no` begins case-insensitively with `SNF/`, in source row order;
every other row appears in the reject list, paired with its spreadsheet
row number (the header is row 1, the first data row is row 2, matching
`index + 2` in the code) and the reason string built from its `set_no`. -/
theorem load_data_partitions_rows (cols : List String) (rows recs : List Record)
    (rejs : List (Nat × String))
    (h : load_data (some (cols, rows)) = Except.ok (recs, rejs)) :
    recs = (rows.map normalizeRow).filter
        (fun r => pyStartsWith (pyUpper r.set_no) "SNF/") ∧
    rejs = (((rows.map normalizeRow).enumFrom 2).filter
        (fun p => !pyStartsWith (pyUpper p.snd.set_no) "SNF/")).map
        (fun p => (p.fst, "Invalid SET-NO format: " ++ p.snd.set_no)) := by
  rw [load_data] at h
  cases hres : resolveColumns cols column_mapping with
  | error e =>
    rw [hres] at h
    exact absurd h (by simp)
  | ok m =>
    rw [hres] at h
    have h2 := Except.ok.inj h
    rw [processRows_spec] at h2
    have hrecs : recs = (rows.map normalizeRow).filter validSetNo :=
      (congrArg Prod.fst h2).symm
    have hrejs : rejs =
        (((rows.map normalizeRow).enumFrom 2).filter
          (fun p => !validSetNo p.snd)).map
          (fun p => (p.fst, rejectMsg p.snd)) :=
      (congrArg Prod.snd h2).symm
    exact ⟨hrecs, hrejs⟩

/-- The header of the concrete dataset used by the C1 witness. -/
def c1Header : List String :=
  ["ASSOCIATE NAME", "ASSOCIATE ID", "RECEIVER\x27S NAME",
   "FORM STATUS", "LINE NO.", "SET-NO.OF FORM"]

/-- The raw rows of the concrete dataset used by the C1 witness. -/
def c1Rows : List Record :=
  [⟨" a ", "b", "c", "d", " 12B", " snf/3 "⟩, ⟨"x", "y", "z", "w", "5", "ABC"⟩]

/-- Witness for C1 on a concrete two-row dataset: the `snf/3` row is
kept (normalized), the `ABC` row is rejected as spreadsheet row 3. -/
theorem load_data_partitions_rows_witness :
    load_data (some (c1Header, c1Rows))
      = Except.ok ([⟨"a", "b", "c", "d", "12B", "snf/3"⟩],
          [(3, "Invalid SET-NO format: ABC")]) ∧
    ([⟨"a", "b", "c", "d", "12B", "snf/3"⟩] : List Record)
      = (c1Rows.map normalizeRow).filter
        (fun r => pyStartsWith (pyUpper r.set_no) "SNF/") :=
  ⟨rfl,
   (load_data_partitions_rows c1Header c1Rows
      [⟨"a", "b", "c", "d", "12B", "snf/3"⟩]
      [(3, "Invalid SET-NO format: ABC")] rfl).1⟩

/-- **C7 (amended).**  `load_data` fails exactly when the source is
missing/unreadable or some canonical field has no alias among the source
columns; in the missing-column case the error message names a missing
canonical field together with the list of columns present.  (A readable
source with zero data rows loads successfully as an empty dataset.) -/
theorem load_data_failure_iff (source : Option (List String × List Record)) :
    ((∃ e, load_data source = Except.error e) ↔
      (source = none ∨ ∃ cols rows, source = some (cols, rows) ∧
        ∃ p, p ∈ column_mapping ∧ ∀ a ∈ p.snd, cols.contains a = false)) ∧
    (∀ cols rows e, source = some (cols, rows) →
      load_data source = Except.error e →
      ∃ p, p ∈ column_mapping ∧ findAlias cols p.snd = none ∧
        e = "Failed to load data: " ++ missingColumnMsg p.fst cols) := by
  constructor
  · cases source with
    | none =>
      constructor
      · intro _
        exact Or.inl rfl
      · intro _
        exact ⟨"Failed to load data: Data file not found", rfl⟩
    | some cr =>
      obtain ⟨cols, rows⟩ := cr
      constructor
      · rintro ⟨e, he⟩
        rw [load_data] at he
        cases hres : resolveColumns cols column_mapping with
        | error e2 =>
          obtain ⟨p, hp, hall⟩ := (resolveColumns_error_iff cols column_mapping).mp ⟨e2, hres⟩
          exact Or.inr ⟨cols, rows, rfl, p, hp, hall⟩
        | ok m =>
          rw [hres] at he
          exact absurd he (by simp)
      · rintro (hno | ⟨cols2, rows2, hsome, p, hp, hall⟩)
        · exact absurd hno (by simp)
        · obtain ⟨rfl, rfl⟩ := Prod.mk.inj (Option.some.inj hsome)
          obtain ⟨e, he⟩ := (resolveColumns_error_iff cols column_mapping).mpr ⟨p, hp, hall⟩
          refine ⟨"Failed to load data: " ++ e, ?_⟩
          rw [load_data, he]
  · intro cols rows e hsome he
    subst hsome
    rw [load_data] at he
    cases hres : resolveColumns cols column_mapping with
    | error e2 =>
      rw [hres] at he
      obtain ⟨p, hp, hn, hm⟩ := resolveColumns_error_msg cols column_mapping e2 hres
      exact ⟨p, hp, hn, by rw [← Except.error.inj he, hm]⟩
    | ok m =>
      rw [hres] at he
      exact absurd he (by simp)

/-- Witness for C7: with the single source column `Name` the load fails,
`associate_id` is reported missing, and the message lists the columns. -/
theorem load_data_failure_iff_witness :
    ∃ p, p ∈ column_mapping ∧ findAlias ["Name"] p.snd = none ∧
      "Failed to load data: Could not find column for associate_id. Available columns: Name"
        = "Failed to load data: " ++ missingColumnMsg p.fst ["Name"] :=
  (load_data_failure_iff (some (["Name"], []))).2 ["Name"] []
    "Failed to load data: Could not find column for associate_id. Available columns: Name"
    rfl rfl

/-- Counterexample for C7 as stated: a readable source with a complete
header and zero data rows ("fewer than one data row") does NOT fail; it
loads as the empty dataset. -/
theorem load_data_emptyRows_ok :
    load_data (some (["ASSOCIATE NAME", "ASSOCIATE ID", "RECEIVER\x27S NAME",
        "FORM STATUS", "LINE NO.", "SET-NO.OF FORM"], []))
      = Except.ok ([], []) := rfl

/-- A dataset row used by the reload theorems. -/
def sampleRecord : Record := ⟨"A", "1", "B", "OK", "5", "SNF/5"⟩

/-- **C8 (amended).**  A failed load attempt never crashes: at process
start the dataset falls back to empty; on reload via `/update_data` the
previously loaded dataset is kept in memory and the request reports
failure. -/
theorem failed_load_fallback (old : List Record)
    (source : Option (List String × List Record)) (e : String)
    (h : load_data source = Except.error e) :
    startupData (load_data source) = [] ∧
    update_data old (load_data source) = { data := old, success := false } := by
  rw [h]
  exact ⟨rfl, rfl⟩

/-- Witness for C8 at a concrete failing source (missing file) and a
concrete non-empty previous dataset. -/
theorem failed_load_fallback_witness :
    startupData (load_data none) = [] ∧
    update_data [sampleRecord] (load_data none)
      = { data := [sampleRecord], success := false } :=
  failed_load_fallback [sampleRecord] none
    "Failed to load data: Data file not found" rfl

/-- Counterexample for C8 as stated: when a reload fails while a
non-empty dataset is loaded, the system keeps the old records instead of
falling back to the empty dataset. -/
theorem failed_reload_keeps_old_data :
    update_data [sampleRecord] (load_data none)
      = { data := [sampleRecord], success := false } := rfl

/-! ## Query-engine lemmas -/

theorem ne_empty_of_startsWith_snf (t : String)
    (hsnf : pyStartsWith (pyUpper t) "SNF/" = true) : ¬ t = "" := by
  intro h
  subst h
  exact absurd hsnf (by decide)

/-- Unfolding of `search` on the non-error, non-empty path. -/
theorem search_eq_results (data : List Record) (t sel : String)
    (ht : pyStrip t = t)
    (hok : (pyStartsWith (pyUpper t) "SNF/" && !(validate_search_term t).fst) = false)
    (ht0 : ¬ t = "") :
    search data t sel =
      SearchOutcome.results (List.insertionSort lineKeyRel (matchedRecords data t sel)) := by
  have ht0b : (t == "") = false := beq_eq_false_iff_ne.mpr ht0
  simp only [search, ht, hok, ht0b, Bool.false_eq_true, if_false]

/-- Unfolding of `search` on the validation-error path. -/
theorem search_eq_error (data : List Record) (t sel : String)
    (ht : pyStrip t = t)
    (hbad : (pyStartsWith (pyUpper t) "SNF/" && !(validate_search_term t).fst) = true) :
    search data t sel =
      SearchOutcome.validationError ((validate_search_term t).snd.getD "") := by
  simp only [search, ht, hbad, if_true]

/-- The identifier shape the validator actually enforces: exactly one
slash, left part case-insensitively `SNF`, and the part right of the
slash nonempty and all ASCII digits after trimming whitespace. -/
def amendedIdForm (t : String) : Bool :=
  match pySplitSlash t with
  | [p0, p1] => pyUpper p0 == "SNF" && pyIsDigitStr (pyStrip p1)
  | _ => false

theorem validate_eq_amended (t : String)
    (hsnf : pyStartsWith (pyUpper t) "SNF/" = true) :
    (validate_search_term t).fst = amendedIdForm t := by
  have ht0 : (t == "") = false :=
    beq_eq_false_iff_ne.mpr (ne_empty_of_startsWith_snf t hsnf)
  rw [validate_search_term, amendedIdForm]
  simp only [ht0, Bool.false_eq_true, if_false, hsnf, if_true]
  cases hsplit : pySplitSlash t with
  | nil => rfl
  | cons p0 rest =>
    cases rest with
    | nil => rfl
    | cons p1 rest2 =>
      cases rest2 with
      | nil =>
        cases hb1 : (pyUpper p0 == "SNF") with
        | false => simp [hb1]
        | true =>
          cases hb2 : pyIsDigitStr (pyStrip p1) with
          | false => simp [hb1, hb2]
          | true => simp [hb1, hb2]
      | cons p2 rest3 => rfl

/-- **C2 (amended).**  For a (trimmed) term beginning case-insensitively
with `SNF/`: if it fails the enforced identifier shape (exactly one
slash, left part case-insensitively `SNF`, right part nonempty and all
ASCII digits after trimming), `search` returns a validation error and no
result list; if it satisfies that shape, validation never rejects it and
`search` proceeds to a result list. -/
theorem invalid_snf_term_validation (data : List Record) (t sel : String)
    (ht : pyStrip t = t)
    (hsnf : pyStartsWith (pyUpper t) "SNF/" = true) :
    (amendedIdForm t = false →
      ∃ msg, search data t sel = SearchOutcome.validationError msg) ∧
    (amendedIdForm t = true →
      ∃ l, search data t sel = SearchOutcome.results l) := by
  have hval := validate_eq_amended t hsnf
  constructor
  · intro hbad
    refine ⟨(validate_search_term t).snd.getD "", ?_⟩
    apply search_eq_error data t sel ht
    rw [hsnf, hval, hbad]
    rfl
  · intro hgood
    refine ⟨List.insertionSort lineKeyRel (matchedRecords data t sel),
      search_eq_results data t sel ht ?_ (ne_empty_of_startsWith_snf t hsnf)⟩
    rw [hsnf, hval, hgood]
    rfl

/-- Witness for C2: `SNF/abc` is rejected with a validation error while
`SNF/251` passes validation and yields a result list. -/
theorem invalid_snf_term_validation_witness :
    (∃ msg, search [] "SNF/abc" "all" = SearchOutcome.validationError msg) ∧
    (∃ l, search [] "SNF/251" "all" = SearchOutcome.results l) :=
  ⟨(invalid_snf_term_validation [] "SNF/abc" "all" rfl rfl).1 rfl,
   (invalid_snf_term_validation [] "SNF/251" "all" rfl rfl).2 rfl⟩

/-- Counterexample for C2 as stated: the term `SNF/ 12` begins with
`SNF/` and its right part ` 12` is not composed entirely of ASCII digits,
yet `search` does not return a validation error: the validator trims the
right part before the digit test, so the search proceeds to a (here
empty) result list. -/
theorem snf_inner_space_passes_validation :
    search [] "SNF/ 12" "all" = SearchOutcome.results [] := rfl

/-- **C10.**  A nonempty trimmed term that does not begin
case-insensitively with `SNF/`, searched under any selector outside the
six recognized values, yields the empty result list and no error. -/
theorem unknown_selector_empty_results (data : List Record) (t sel : String)
    (ht : pyStrip t = t) (ht0 : ¬ t = "")
    (hsnf : pyStartsWith (pyUpper t) "SNF/" = false)
    (h1 : ¬ sel = "all") (h2 : ¬ sel = "associate_name")
    (h3 : ¬ sel = "associate_id") (h4 : ¬ sel = "receiver_name")
    (h5 : ¬ sel = "set_no") (h6 : ¬ sel = "line_no") :
    search data t sel = SearchOutcome.results [] := by
  rw [search_eq_results data t sel ht (by rw [hsnf]; rfl) ht0]
  have hmatch : ∀ r, matchesRecord sel t r = false := by
    intro r
    rw [matchesRecord]
    simp only [beq_eq_false_iff_ne.mpr h1, beq_eq_false_iff_ne.mpr h2,
      beq_eq_false_iff_ne.mpr h3, beq_eq_false_iff_ne.mpr h4,
      beq_eq_false_iff_ne.mpr h5, beq_eq_false_iff_ne.mpr h6,
      Bool.false_eq_true, if_false]
  have hfil : matchedRecords data t sel = [] := by
    rw [matchedRecords]
    apply List.filter_eq_nil_iff.mpr
    intro r _
    rw [effectiveType, hsnf]
    simp only [Bool.false_eq_true, if_false, hmatch r]
    exact not_false
  rw [hfil]
  rfl

/-- Witness for C10: selector `bogus` on a dataset that the term would
otherwise match returns no results. -/
theorem unknown_selector_empty_results_witness :
    search [sampleRecord] "A" "bogus" = SearchOutcome.results [] :=
  unknown_selector_empty_results [sampleRecord] "A" "bogus" rfl
    (by decide) rfl (by decide) (by decide) (by decide) (by decide)
    (by decide) (by decide)

/-! ## The strict identifier form `SNF/<digits>` -/

theorem uint32_le_iff_toNat {a b : UInt32} : a ≤ b ↔ a.toNat ≤ b.toNat := by
  rw [UInt32.le_def, BitVec.le_def]
  exact Iff.rfl

theorem isDigit_eq_toNat (c : Char) :
    c.isDigit = (decide (48 ≤ c.toNat) && decide (c.toNat ≤ 57)) := by
  have e1 : decide (c.val ≥ 48) = decide (48 ≤ c.toNat) :=
    decide_eq_decide.mpr (by rw [ge_iff_le, uint32_le_iff_toNat]; exact Iff.rfl)
  have e2 : decide (c.val ≤ 57) = decide (c.toNat ≤ 57) :=
    decide_eq_decide.mpr (by rw [uint32_le_iff_toNat]; exact Iff.rfl)
  rw [Char.isDigit, e1, e2]

theorem isWhitespace_of_isDigit (c : Char) (h : c.isDigit = true) :
    c.isWhitespace = false := by
  rw [isDigit_eq_toNat, Bool.and_eq_true] at h
  have h1 := of_decide_eq_true h.1
  have h2 := of_decide_eq_true h.2
  rw [isWhitespace_eq_toNat]
  rw [decide_eq_false (by omega), decide_eq_false (by omega),
      decide_eq_false (by omega), decide_eq_false (by omega)]
  rfl

theorem dropWhile_ws_of_digits (l : List Char) (h : ∀ c ∈ l, c.isDigit = true) :
    l.dropWhile Char.isWhitespace = l := by
  cases l with
  | nil => rfl
  | cons c t =>
    rw [List.dropWhile_cons, if_neg]
    rw [isWhitespace_of_isDigit c (h c (List.mem_cons_self c t))]
    exact Bool.false_ne_true

theorem pyStrip_of_digits (s : String) (h : pyIsDigitStr s = true) :
    pyStrip s = s := by
  rw [pyIsDigitStr, Bool.and_eq_true] at h
  have hdig : ∀ c ∈ s.data, c.isDigit = true := by
    intro c hc
    exact List.all_eq_true.mp h.2 c hc
  rw [pyStrip, dropWhile_ws_of_digits s.data hdig,
      dropWhile_ws_of_digits s.data.reverse
        (fun c hc => hdig c (List.mem_reverse.mp hc)),
      List.reverse_reverse]

theorem pyStrip_eq_self_of_ends (s : String)
    (hhead : ∀ c, s.data.head? = some c → c.isWhitespace = false)
    (hlast : ∀ c, s.data.reverse.head? = some c → c.isWhitespace = false) :
    pyStrip s = s := by
  have h1 : s.data.dropWhile Char.isWhitespace = s.data := by
    cases hd : s.data with
    | nil => rfl
    | cons c t =>
      rw [List.dropWhile_cons, if_neg]
      rw [hhead c (by rw [hd]; rfl)]
      exact Bool.false_ne_true
  have h2 : s.data.reverse.dropWhile Char.isWhitespace = s.data.reverse := by
    cases hd : s.data.reverse with
    | nil => rfl
    | cons c t =>
      rw [List.dropWhile_cons, if_neg]
      rw [hlast c (by rw [hd]; rfl)]
      exact Bool.false_ne_true
  rw [pyStrip, h1, h2, List.reverse_reverse]

theorem pySplitSlash_reconstruct (t p0 p1 : String)
    (h : pySplitSlash t = [p0, p1]) :
    t.data = p0.data ++ '/' :: p1.data := by
  rw [pySplitSlash] at h
  have h2 : t.data.splitOnP (fun c => c == '/') = [p0.data, p1.data] := by
    cases hs : t.data.splitOnP (fun c => c == '/') with
    | nil =>
      rw [hs] at h
      exact absurd h (by simp)
    | cons a rest =>
      cases rest with
      | nil =>
        rw [hs] at h
        exact absurd h (by simp)
      | cons b rest2 =>
        cases rest2 with
        | nil =>
          rw [hs] at h
          simp only [List.map_cons, List.map_nil, List.cons.injEq, and_true] at h
          rw [← h.1, ← h.2]
        | cons c rest3 =>
          rw [hs] at h
          exact absurd h (by simp)
  have h3 : List.intercalate ['/'] (t.data.splitOn '/') = t.data :=
    List.intercalate_splitOn t.data '/'
  rw [List.splitOn, h2] at h3
  rw [← h3]
  simp [List.intercalate, List.intersperse]

/-- The identifier format the spec requires before the shortcut: exactly
one slash, left part case-insensitively `SNF`, right part nonempty and
composed entirely of ASCII digits. -/
def specIdForm (t : String) : Bool :=
  match pySplitSlash t with
  | [p0, p1] => pyUpper p0 == "SNF" && pyIsDigitStr p1
  | _ => false

theorem specIdForm_destruct (t : String) (h : specIdForm t = true) :
    ∃ p0 p1, pySplitSlash t = [p0, p1] ∧ pyUpper p0 = "SNF" ∧
      pyIsDigitStr p1 = true := by
  unfold specIdForm at h
  split at h
  next p0 p1 heq =>
    rw [Bool.and_eq_true] at h
    exact ⟨p0, p1, heq, beq_iff_eq.mp h.1, h.2⟩
  next => exact absurd h Bool.false_ne_true

theorem map_toUpper_of_pyUpper_snf (p0 : String) (hup : pyUpper p0 = "SNF") :
    p0.data.map Char.toUpper = ['S', 'N', 'F'] := by
  have h := congrArg String.data hup
  rw [pyUpper] at h
  exact h

theorem specIdForm_startsWith (t : String) (h : specIdForm t = true) :
    pyStartsWith (pyUpper t) "SNF/" = true := by
  obtain ⟨p0, p1, hsplit, hup, hdig⟩ := specIdForm_destruct t h
  have ht := pySplitSlash_reconstruct t p0 p1 hsplit
  have hup2 := map_toUpper_of_pyUpper_snf p0 hup
  rw [pyStartsWith]
  rw [List.isPrefixOf_iff_prefix]
  show ("SNF/".data) <+: (t.data.map Char.toUpper)
  rw [ht, List.map_append, List.map_cons, hup2]
  exact ⟨List.map Char.toUpper p1.data, rfl⟩

theorem specIdForm_strip (t : String) (h : specIdForm t = true) :
    pyStrip t = t := by
  obtain ⟨p0, p1, hsplit, hup, hdig⟩ := specIdForm_destruct t h
  have ht := pySplitSlash_reconstruct t p0 p1 hsplit
  have hup2 := map_toUpper_of_pyUpper_snf p0 hup
  apply pyStrip_eq_self_of_ends
  · intro c hc
    rw [ht] at hc
    cases hp0 : p0.data with
    | nil =>
      rw [hp0] at hup2
      exact absurd hup2 (by simp)
    | cons c0 cs =>
      rw [hp0, List.cons_append, List.head?_cons] at hc
      have hc0 : c = c0 := (Option.some.inj hc).symm
      subst hc0
      rw [hp0, List.map_cons] at hup2
      have hS : Char.toUpper c = 'S' := (List.cons.inj hup2).1
      rw [← isWhitespace_toUpper, hS]
      rfl
  · intro c hc
    rw [ht] at hc
    have hne : p1.data ≠ [] := by
      rw [pyIsDigitStr, Bool.and_eq_true] at hdig
      intro hcon
      rw [hcon] at hdig
      exact absurd hdig.1 (by simp)
    obtain ⟨ds, dl, hconcat⟩ := (List.eq_nil_or_concat p1.data).resolve_left hne
    rw [List.concat_eq_append] at hconcat
    have hshape : p0.data ++ '/' :: p1.data = (p0.data ++ '/' :: ds) ++ [dl] := by
      rw [hconcat]
      simp
    rw [hshape, List.reverse_append, List.reverse_singleton, List.singleton_append,
        List.head?_cons] at hc
    have hcd : c = dl := (Option.some.inj hc).symm
    subst hcd
    have hdl : c.isDigit = true := by
      rw [pyIsDigitStr, Bool.and_eq_true] at hdig
      apply List.all_eq_true.mp hdig.2 c
      rw [hconcat]
      exact List.mem_append_right ds (List.mem_singleton.mpr rfl)
    exact isWhitespace_of_isDigit c hdl

theorem specIdForm_validate (t : String) (h : specIdForm t = true) :
    (validate_search_term t).fst = true := by
  have hsnf := specIdForm_startsWith t h
  rw [validate_eq_amended t hsnf]
  obtain ⟨p0, p1, hsplit, hup, hdig⟩ := specIdForm_destruct t h
  unfold amendedIdForm
  rw [hsplit]
  show (pyUpper p0 == "SNF" && pyIsDigitStr (pyStrip p1)) = true
  rw [pyStrip_of_digits p1 hdig, Bool.and_eq_true]
  exact ⟨beq_iff_eq.mpr hup, hdig⟩

/-! ## The identifier shortcut (C3) and the export filter (C9) -/

theorem matchesRecord_set_no (t : String) (r : Record) :
    matchesRecord "set_no" t r = (pyUpper t == pyStrip (pyUpper r.set_no)) := rfl

/-- For a term of strict `SNF/<digits>` form, `search` (under any
selector) returns a result list whose members are exactly the records
with case-insensitively equal `set_no`. -/
theorem search_snf_members (data : List Record) (t sel : String)
    (hform : specIdForm t = true)
    (hdata : ∀ r ∈ data, pyStrip r.set_no = r.set_no) :
    ∃ l, search data t sel = SearchOutcome.results l ∧
      ∀ r, r ∈ l ↔ (r ∈ data ∧ pyUpper t = pyUpper r.set_no) := by
  have hsnf := specIdForm_startsWith t hform
  have hstrip := specIdForm_strip t hform
  have hvalid := specIdForm_validate t hform
  refine ⟨List.insertionSort lineKeyRel (matchedRecords data t sel),
    search_eq_results data t sel hstrip (by rw [hsnf, hvalid]; rfl)
      (ne_empty_of_startsWith_snf t hsnf), ?_⟩
  intro r
  rw [List.mem_insertionSort, matchedRecords, List.mem_filter]
  have heff : effectiveType t sel = "set_no" := by
    rw [effectiveType, hsnf]
    rfl
  rw [heff, matchesRecord_set_no]
  constructor
  · rintro ⟨hmem, hbeq⟩
    rw [pyStrip_pyUpper, hdata r hmem] at hbeq
    exact ⟨hmem, beq_iff_eq.mp hbeq⟩
  · rintro ⟨hmem, heq⟩
    refine ⟨hmem, ?_⟩
    rw [pyStrip_pyUpper, hdata r hmem]
    exact beq_iff_eq.mpr heq

/-- **C3.**  For every selector and every term of the strict form
`SNF/<digits>`, `search` returns a result list containing exactly the
records whose `set_no` equals the term case-insensitively: the shortcut
forces the `set_no` equality test regardless of the requested selector. -/
theorem snf_shortcut_matches_set_no (data : List Record) (t sel : String)
    (hform : specIdForm t = true)
    (hdata : ∀ r ∈ data, pyStrip r.set_no = r.set_no) :
    ∃ l, search data t sel = SearchOutcome.results l ∧
      ∀ r, r ∈ l ↔ (r ∈ data ∧ pyUpper t = pyUpper r.set_no) :=
  search_snf_members data t sel hform hdata

/-- The record of the C3 witness, with a lowercase `set_no`. -/
def recSnf : Record := ⟨"x", "y", "z", "ok", "1", "snf/251"⟩

/-- Witness for C3: the term `SNF/251` under selector `associate_name`
still matches the record with `set_no = "snf/251"`. -/
theorem snf_shortcut_matches_set_no_witness :
    specIdForm "SNF/251" = true ∧
    (∃ l, search [recSnf] "SNF/251" "associate_name" = SearchOutcome.results l ∧
      ∀ r, r ∈ l ↔ (r ∈ [recSnf] ∧ pyUpper "SNF/251" = pyUpper r.set_no)) :=
  ⟨by decide,
   snf_shortcut_matches_set_no [recSnf] "SNF/251" "associate_name"
     (by decide) (by decide)⟩

theorem exportFilter_snf_members (data : List Record) (t : String)
    (hstrip : pyStrip t = t)
    (hsnf : pyStartsWith (pyUpper t) "SNF/" = true) :
    ∀ r, r ∈ exportFilter data t ↔ (r ∈ data ∧ pyUpper t = pyUpper r.set_no) := by
  intro r
  rw [exportFilter]
  simp only [hstrip, hsnf, if_true]
  rw [List.mem_filter]
  constructor
  · rintro ⟨hmem, hbeq⟩
    exact ⟨hmem, beq_iff_eq.mp hbeq⟩
  · rintro ⟨hmem, heq⟩
    exact ⟨hmem, beq_iff_eq.mpr heq⟩

/-- **C9 (amended).**  For terms of the valid identifier form
`SNF/<digits>`, the export filter selects exactly the records that the
search page (selector `all`, which the shortcut overrides) returns: both
reduce to exact case-insensitive `set_no` equality.  For other terms the
export route uses looser legacy rules and can disagree with the search
page (see the counterexample). -/
theorem export_matches_search_for_snf_terms (data : List Record) (t : String)
    (hform : specIdForm t = true)
    (hdata : ∀ r ∈ data, pyStrip r.set_no = r.set_no) :
    ∃ l, search data t "all" = SearchOutcome.results l ∧
      ∀ r, (r ∈ exportFilter data t ↔ r ∈ l) := by
  obtain ⟨l, hl, hmem⟩ := search_snf_members data t "all" hform hdata
  refine ⟨l, hl, ?_⟩
  intro r
  rw [hmem r]
  exact exportFilter_snf_members data t (specIdForm_strip t hform)
    (specIdForm_startsWith t hform) r

/-- Witness for C9 on a concrete dataset: for the term `SNF/251` the
export filter and the search results agree. -/
theorem export_matches_search_for_snf_terms_witness :
    specIdForm "SNF/251" = true ∧
    (∃ l, search [recSnf, sampleRecord] "SNF/251" "all" = SearchOutcome.results l ∧
      ∀ r, (r ∈ exportFilter [recSnf, sampleRecord] "SNF/251" ↔ r ∈ l)) :=
  ⟨by decide,
   export_matches_search_for_snf_terms [recSnf, sampleRecord] "SNF/251"
     (by decide) (by decide)⟩

/-- The record of the C9 counterexample: its `associate_id` contains the
digits `12` but its `line_no` is `7`. -/
def recExp : Record := ⟨"alice", "123", "bob", "ok", "7", "SNF/1"⟩

/-- Counterexample for C9 as stated: for the all-digits term `12` the
search page (selector `all`) matches the record through the substring
test on `associate_id`, while the export filter treats the term as a
line-number search and matches nothing — the two filters select
different sets. -/
theorem export_search_divergence :
    search [recExp] "12" "all" = SearchOutcome.results [recExp] ∧
    exportFilter [recExp] "12" = [] := ⟨rfl, rfl⟩

/-! ## Result ordering (C4) -/

theorem lineKeyRel_of_key_eq {a b : Record}
    (h : get_line_number a = get_line_number b) : lineKeyRel a b := by
  rw [lineKeyRel, lineKeyLE, h]
  cases get_line_number b with
  | none => rfl
  | some y => exact decide_eq_true (Nat.le_refl y)

/-- Inversion of `search` on the results constructor. -/
theorem search_results_inv (data : List Record) (t sel : String)
    (l : List Record) (h : search data t sel = SearchOutcome.results l) :
    l = List.insertionSort lineKeyRel (matchedRecords data (pyStrip t) sel) := by
  simp only [search] at h
  by_cases hc1 : (pyStartsWith (pyUpper (pyStrip t)) "SNF/" &&
      !(validate_search_term (pyStrip t)).fst) = true
  · rw [if_pos hc1] at h
    exact absurd h (by simp)
  · rw [if_neg hc1] at h
    by_cases hc2 : (pyStrip t == "") = true
    · rw [if_pos hc2] at h
      exact absurd h (by simp)
    · rw [if_neg hc2] at h
      exact (SearchOutcome.results.inj h).symm

/-- **C4.**  Whenever `search` returns a result list, that list is the
matched records sorted ascending by the integer extracted from the
digits of `line_no`, records without digits sorting last (`none` key),
and the sort is stable: it is a permutation of the matched records in
which, for every key value, the records carrying that key appear in
their original dataset order. -/
theorem results_sorted_by_line_number (data : List Record) (t sel : String)
    (l : List Record)
    (h : search data t sel = SearchOutcome.results l) :
    l.Pairwise lineKeyRel ∧
    (∀ k : Option Nat,
      l.filter (fun r => decide (get_line_number r = k)) =
        (matchedRecords data (pyStrip t) sel).filter
          (fun r => decide (get_line_number r = k))) ∧
    l.Perm (matchedRecords data (pyStrip t) sel) := by
  have hl := search_results_inv data t sel l h
  subst hl
  set m := matchedRecords data (pyStrip t) sel with hm
  refine ⟨List.sorted_insertionSort lineKeyRel m, ?_, List.perm_insertionSort lineKeyRel m⟩
  intro k
  have hpair : (m.filter (fun r => decide (get_line_number r = k))).Pairwise lineKeyRel := by
    apply List.pairwise_of_forall_mem_list
    intro a ha b hb
    have ha2 := of_decide_eq_true (List.mem_filter.mp ha).2
    have hb2 := of_decide_eq_true (List.mem_filter.mp hb).2
    exact lineKeyRel_of_key_eq (ha2.trans hb2.symm)
  have hsub : List.Sublist (m.filter (fun r => decide (get_line_number r = k)))
      (List.insertionSort lineKeyRel m) :=
    List.sublist_insertionSort hpair (List.filter_sublist m)
  have hsub2 := hsub.filter (fun r => decide (get_line_number r = k))
  rw [List.filter_filter] at hsub2
  have hidem : m.filter (fun a => decide (get_line_number a = k) &&
      decide (get_line_number a = k)) =
      m.filter (fun r => decide (get_line_number r = k)) := by
    apply List.filter_congr
    intro a _
    exact Bool.and_self _
  rw [hidem] at hsub2
  have hlen : ((List.insertionSort lineKeyRel m).filter
      (fun r => decide (get_line_number r = k))).length =
      (m.filter (fun r => decide (get_line_number r = k))).length :=
    ((List.perm_insertionSort lineKeyRel m).filter _).length_eq
  exact (hsub2.eq_of_length hlen.symm).symm

/-- The dataset of the C4 witness, with `line_no` values
`12B`, `3`, `abc`, `1`, all matching the term `zz`. -/
def c4Rows : List Record :=
  [⟨"zz", "", "", "", "12B", "SNF/1"⟩, ⟨"zz", "", "", "", "3", "SNF/2"⟩,
   ⟨"zz", "", "", "", "abc", "SNF/3"⟩, ⟨"zz", "", "", "", "1", "SNF/4"⟩]

/-- Witness for C4, reproducing the spec example: `line_no` values
`12B, 3, abc, 1` come back ordered `1, 3, 12B, abc`. -/
theorem results_sorted_by_line_number_witness :
    search c4Rows "zz" "all" = SearchOutcome.results
      [⟨"zz", "", "", "", "1", "SNF/4"⟩, ⟨"zz", "", "", "", "3", "SNF/2"⟩,
       ⟨"zz", "", "", "", "12B", "SNF/1"⟩, ⟨"zz", "", "", "", "abc", "SNF/3"⟩] ∧
    List.Pairwise lineKeyRel
      [⟨"zz", "", "", "", "1", "SNF/4"⟩, ⟨"zz", "", "", "", "3", "SNF/2"⟩,
       ⟨"zz", "", "", "", "12B", "SNF/1"⟩, ⟨"zz", "", "", "", "abc", "SNF/3"⟩] :=
  ⟨rfl,
   (results_sorted_by_line_number c4Rows "zz" "all"
     [⟨"zz", "", "", "", "1", "SNF/4"⟩, ⟨"zz", "", "", "", "3", "SNF/2"⟩,
      ⟨"zz", "", "", "", "12B", "SNF/1"⟩, ⟨"zz", "", "", "", "abc", "SNF/3"⟩]
     rfl).1⟩

/-! ## Field-selector semantics (C5, C6) -/

/-- The loader-output invariant: every field carries no surrounding
whitespace (the loader strips all columns before any row is kept). -/
def TrimmedRecord (r : Record) : Prop :=
  pyStrip r.associate_name = r.associate_name ∧
  pyStrip r.associate_id = r.associate_id ∧
  pyStrip r.receiver_name = r.receiver_name ∧
  pyStrip r.form_status = r.form_status ∧
  pyStrip r.line_no = r.line_no ∧
  pyStrip r.set_no = r.set_no

instance (r : Record) : Decidable (TrimmedRecord r) := by
  unfold TrimmedRecord
  infer_instance

theorem matchesRecord_associate_name (t : String) (r : Record) :
    matchesRecord "associate_name" t r
      = pyContains (pyStrip (pyLower r.associate_name)) (pyLower t) := rfl

theorem matchesRecord_associate_id (t : String) (r : Record) :
    matchesRecord "associate_id" t r
      = pyContains (pyStrip (pyLower r.associate_id)) (pyLower t) := rfl

theorem matchesRecord_receiver_name (t : String) (r : Record) :
    matchesRecord "receiver_name" t r
      = pyContains (pyStrip (pyLower r.receiver_name)) (pyLower t) := rfl

theorem matchesRecord_line_no (t : String) (r : Record) :
    matchesRecord "line_no" t r = (t == pyStrip r.line_no) := rfl

/-- **C6.**  On a loader-normalized record, the single-field selectors
behave as specified: `associate_name` / `associate_id` / `receiver_name`
are case-insensitive substring tests against the field, `set_no` is
case-insensitive full-string equality (not substring: the closing
conjunct shows a `set_no` search for `SNF/25` does not match `SNF/251`),
and `line_no` is literal case-sensitive string equality with the term. -/
theorem single_field_selector_semantics (t : String) (r : Record)
    (hr : TrimmedRecord r) :
    (matchesRecord "associate_name" t r
      = pyContains (pyLower r.associate_name) (pyLower t)) ∧
    (matchesRecord "associate_id" t r
      = pyContains (pyLower r.associate_id) (pyLower t)) ∧
    (matchesRecord "receiver_name" t r
      = pyContains (pyLower r.receiver_name) (pyLower t)) ∧
    (matchesRecord "set_no" t r = (pyUpper t == pyUpper r.set_no)) ∧
    (matchesRecord "line_no" t r = (t == r.line_no)) ∧
    search [⟨"", "", "", "", "1", "SNF/251"⟩] "SNF/25" "set_no"
      = SearchOutcome.results [] := by
  obtain ⟨h1, h2, h3, _, h5, h6⟩ := hr
  refine ⟨?_, ?_, ?_, ?_, ?_, rfl⟩
  · rw [matchesRecord_associate_name, pyStrip_pyLower, h1]
  · rw [matchesRecord_associate_id, pyStrip_pyLower, h2]
  · rw [matchesRecord_receiver_name, pyStrip_pyLower, h3]
  · rw [matchesRecord_set_no, pyStrip_pyUpper, h6]
  · rw [matchesRecord_line_no, h5]

/-- Witness for C6 at the concrete record `sampleRecord` and term `a`. -/
theorem single_field_selector_semantics_witness :
    TrimmedRecord sampleRecord ∧
    (matchesRecord "associate_name" "a" sampleRecord
      = pyContains (pyLower sampleRecord.associate_name) (pyLower "a")) :=
  ⟨by decide, (single_field_selector_semantics "a" sampleRecord (by decide)).1⟩

/-- The five sub-tests of claim C5, applied to one token: CI substring
containment in the four text fields, or literal equality with `line_no`
(the spec defines the `line_no` test as case-sensitive literal
equality). -/
def claimSubTests (r : Record) (tok : String) : Bool :=
  pyContains (pyLower r.associate_name) (pyLower tok) ||
  pyContains (pyLower r.associate_id) (pyLower tok) ||
  pyContains (pyLower r.receiver_name) (pyLower tok) ||
  pyContains (pyLower r.set_no) (pyLower tok) ||
  tok == r.line_no

/-- Claim C5 as stated: under selector `all`, a multi-token term matches
iff every whitespace-separated token passes some sub-test, and a
single-token term matches iff it passes some sub-test — the same five
sub-tests in both paths. -/
def claimedAllMatch (t : String) (r : Record) : Bool :=
  let toks := pySplitWs t
  if toks.length > 1 then toks.all (claimSubTests r) else claimSubTests r t

/-- The `all`-selector rule the code actually implements (for non-`SNF/`
terms): the multi-token path tests the lowercased tokens and compares
them with the lowercased `line_no` (case-insensitive equality), while
the single-token path keeps the literal case-sensitive `line_no`
comparison with the original term. -/
def allMatchAmended (t : String) (r : Record) : Bool :=
  let toks := pySplitWs (pyLower t)
  if toks.length > 1 then
    toks.all (fun p =>
      pyContains (pyLower r.associate_name) p ||
      pyContains (pyLower r.associate_id) p ||
      pyContains (pyLower r.receiver_name) p ||
      pyContains (pyLower r.set_no) p ||
      p == pyLower r.line_no)
  else
    (pyContains (pyLower r.associate_name) (pyLower t) ||
     pyContains (pyLower r.associate_id) (pyLower t) ||
     pyContains (pyLower r.receiver_name) (pyLower t) ||
     pyContains (pyLower r.set_no) (pyLower t) ||
     t == r.line_no)

theorem matchesRecord_all_eq (t : String) (r : Record)
    (hsnf : pyStartsWith (pyUpper t) "SNF/" = false)
    (hr : TrimmedRecord r) :
    matchesRecord "all" t r = allMatchAmended t r := by
  obtain ⟨h1, h2, h3, _, h5, h6⟩ := hr
  simp only [matchesRecord, allMatchAmended, hsnf, Bool.false_eq_true, if_false,
    beq_self_eq_true, if_true, pyStrip_pyLower, pyStrip_pyUpper, h1, h2, h3, h5,
    h6, pyLower_pyUpper]

/-- **C5 (amended).**  Under selector `all` with a nonempty trimmed term
not beginning with `SNF/`, over loader-normalized records: `search`
returns a result list whose members are exactly the records accepted by
the token rule `allMatchAmended` — every lowercased token must pass a
sub-test when the term is multi-token, the term itself when single-token.
The five sub-tests are NOT identical in the two paths: the multi-token
`line_no` sub-test is case-insensitive while the single-token one is a
literal comparison with the original term (this is what the
counterexample exhibits). -/
theorem all_selector_token_matching (data : List Record) (t : String)
    (ht : pyStrip t = t) (ht0 : ¬ t = "")
    (hsnf : pyStartsWith (pyUpper t) "SNF/" = false)
    (hdata : ∀ r ∈ data, TrimmedRecord r) :
    ∃ l, search data t "all" = SearchOutcome.results l ∧
      ∀ r, r ∈ l ↔ (r ∈ data ∧ allMatchAmended t r = true) := by
  refine ⟨List.insertionSort lineKeyRel (matchedRecords data t "all"),
    search_eq_results data t "all" ht (by rw [hsnf]; rfl) ht0, ?_⟩
  intro r
  rw [List.mem_insertionSort, matchedRecords, List.mem_filter]
  have heff : effectiveType t "all" = "all" := by
    rw [effectiveType, hsnf]
    rfl
  rw [heff]
  constructor
  · rintro ⟨hm, hmatch⟩
    rw [matchesRecord_all_eq t r hsnf (hdata r hm)] at hmatch
    exact ⟨hm, hmatch⟩
  · rintro ⟨hm, hmatch⟩
    refine ⟨hm, ?_⟩
    rw [matchesRecord_all_eq t r hsnf (hdata r hm)]
    exact hmatch

/-- The dataset row of the C5 witness. -/
def recTok : Record := ⟨"alice bob", "", "", "", "7", "SNF/1"⟩

/-- Witness for C5 (amended) at the multi-token term `alice 7`. -/
theorem all_selector_token_matching_witness :
    (∃ l, search [recTok] "alice 7" "all" = SearchOutcome.results l ∧
      ∀ r, r ∈ l ↔ (r ∈ [recTok] ∧ allMatchAmended "alice 7" r = true)) ∧
    allMatchAmended "alice 7" recTok = true :=
  ⟨all_selector_token_matching [recTok] "alice 7" (by decide) (by decide)
     (by decide) (by decide),
   by decide⟩

/-- The record of the C5 counterexample: empty text fields and the
mixed-case `line_no` value `1A`. -/
def recCaseLine : Record := ⟨"", "", "", "", "1A", "SNF/9"⟩

/-- Counterexample for C5 as stated: for the multi-token term `1a 1a`,
no token passes any of the claim's five sub-tests on `recCaseLine`
(in particular `"1a" = "1A"` fails the literal `line_no` test), yet the
code matches the record, because its multi-token path lowercases the
`line_no` comparison. -/
theorem all_selector_line_no_case :
    search [recCaseLine] "1a 1a" "all" = SearchOutcome.results [recCaseLine] ∧
    claimedAllMatch "1a 1a" recCaseLine = false := ⟨rfl, rfl⟩

/-! ## The loader output is trimmed

These lemmas discharge the `TrimmedRecord` / trimmed-`set_no`
hypotheses of the selector theorems for every record the loader can
produce: stripping is idempotent, so re-loading or re-stripping a loaded
record changes nothing. -/

theorem head?_dropWhile_ws (l : List Char) (c : Char)
    (h : (l.dropWhile Char.isWhitespace).head? = some c) :
    c.isWhitespace = false := by
  induction l with
  | nil => exact absurd h (by simp)
  | cons a t ih =>
    rw [List.dropWhile_cons] at h
    by_cases ha : a.isWhitespace = true
    · rw [if_pos ha] at h
      exact ih h
    · rw [if_neg ha] at h
      rw [List.head?_cons] at h
      rw [← Option.some.inj h]
      exact Bool.eq_false_iff.mpr ha

theorem pyStrip_idem (s : String) : pyStrip (pyStrip s) = pyStrip s := by
  set d1 := s.data.dropWhile Char.isWhitespace with hd1
  set d2 := d1.reverse.dropWhile Char.isWhitespace with hd2
  have hdata : (pyStrip s).data = d2.reverse := rfl
  apply pyStrip_eq_self_of_ends
  · intro c h
    rw [hdata, List.head?_reverse] at h
    have hsuf : List.IsSuffix d2 d1.reverse :=
      List.dropWhile_suffix Char.isWhitespace
    obtain ⟨u, hu⟩ := hsuf
    have h2 : d1.head? = some c := by
      rw [← List.getLast?_reverse, ← hu, List.getLast?_append, h]
      rfl
    exact head?_dropWhile_ws s.data c h2
  · intro c h
    rw [hdata, List.reverse_reverse] at h
    exact head?_dropWhile_ws d1.reverse c h

theorem normalizeRow_trimmed (r : Record) : TrimmedRecord (normalizeRow r) :=
  ⟨pyStrip_idem r.associate_name, pyStrip_idem r.associate_id,
   pyStrip_idem r.receiver_name, pyStrip_idem r.form_status,
   pyStrip_idem r.line_no, pyStrip_idem r.set_no⟩

/-- Every record a successful load puts into the dataset satisfies
`TrimmedRecord`; in particular the trimmed-field hypotheses of the
search theorems hold for every loaded dataset. -/
theorem load_data_records_trimmed (cols : List String) (rows recs : List Record)
    (rejs : List (Nat × String))
    (h : load_data (some (cols, rows)) = Except.ok (recs, rejs)) :
    ∀ r ∈ recs, TrimmedRecord r := by
  intro r hr
  rw [load_data] at h
  cases hres : resolveColumns cols column_mapping with
  | error e =>
    rw [hres] at h
    exact absurd h (by simp)
  | ok m =>
    rw [hres] at h
    have h2 := Except.ok.inj h
    rw [processRows_spec] at h2
    have hrecs : recs = (rows.map normalizeRow).filter validSetNo :=
      (congrArg Prod.fst h2).symm
    rw [hrecs] at hr
    have hmem := (List.mem_filter.mp hr).1
    obtain ⟨raw, _, hraw⟩ := List.mem_map.mp hmem
    rw [← hraw]
    exact normalizeRow_trimmed raw

/-- Witness-style check tying the chain together on concrete data. -/
theorem load_data_records_trimmed_example :
    ∀ r ∈ [(⟨"a", "b", "c", "d", "12B", "snf/3"⟩ : Record)], TrimmedRecord r :=
  load_data_records_trimmed c1Header c1Rows
    [⟨"a", "b", "c", "d", "12B", "snf/3"⟩]
    [(3, "Invalid SET-NO format: ABC")] rfl

end Noc
